import Mathlib

/-!
Verification of the rust-snes emulator core against its specification.

The definitions below are a shallow embedding of the Rust sources:
machine integers are modelled as `Nat` (with explicit `% 2 ^ w` where the
Rust code wraps), signed quantities as `Int`, fallible code as `Except`,
and the CPU bus is abstracted as a pure byte function for reads together
with an explicit write trace.  Every definition mirrors one Rust item and
is named after it.
-/

namespace RustSnes

/-! ## Generic bit-arithmetic helpers -/

/-- Combining a high byte shifted left by 8 with a small low part is plain
arithmetic. Mirrors the `hi << 8 | lo` idiom used throughout the sources. -/
theorem lor_shift8 (hi lo : Nat) (h : lo < 256) : hi <<< 8 ||| lo = 256 * hi + lo := by
  rw [Nat.shiftLeft_eq]
  have h' : lo < 2 ^ 8 := by omega
  have h2 := Nat.mul_add_lt_is_or h' hi
  rw [Nat.mul_comm hi (2 ^ 8), ← h2]

/-- The bit test `(y >> k) & 1 == 1` used by `Status::from<u8>` agrees with
`Nat.testBit`. -/
theorem shift_and_one_beq (y k : Nat) : ((y >>> k) &&& 1 == 1) = y.testBit k := by
  rw [Nat.testBit, Nat.land_comm]
  rcases h' : 1 &&& y >>> k with _ | t
  · decide
  · have h : 1 &&& y >>> k ≤ 1 := Nat.and_le_left
    rw [h'] at h
    have ht : t = 0 := by omega
    subst ht
    decide

/-- Complementing a byte (`!data` on `u8`, embedded as `0xFF ^^^ data`)
flips each of the low eight bits. -/
theorem xorFF_testBit (dta k : Nat) (hk : k < 8) : (0xFF ^^^ dta).testBit k = !dta.testBit k := by
  rw [Nat.testBit_xor]
  have h : Nat.testBit 0xFF k = true := by
    interval_cases k <;> decide
  rw [h, Bool.true_xor]

/-! ## CPU status register (src/cpu.rs, `struct Status`) -/

/-- Processor status flags, mirroring `cpu.rs` `struct Status`. -/
structure Status where
  c : Bool
  z : Bool
  i : Bool
  d : Bool
  x : Bool
  m : Bool
  v : Bool
  n : Bool
deriving DecidableEq, Repr

/-- Mirrors `impl From<u8> for Status`. -/
def statusFromU8 (dta : Nat) : Status where
  c := dta &&& 1 == 1
  z := (dta >>> 1) &&& 1 == 1
  i := (dta >>> 2) &&& 1 == 1
  d := (dta >>> 3) &&& 1 == 1
  x := (dta >>> 4) &&& 1 == 1
  m := (dta >>> 5) &&& 1 == 1
  v := (dta >>> 6) &&& 1 == 1
  n := (dta >>> 7) &&& 1 == 1

/-- Mirrors `impl Into<u8> for Status`: pack the eight flags into a byte. -/
def statusToU8 (p : Status) : Nat :=
  p.c.toNat ||| p.z.toNat <<< 1 ||| p.i.toNat <<< 2 ||| p.d.toNat <<< 3 |||
  p.x.toNat <<< 4 ||| p.m.toNat <<< 5 ||| p.v.toNat <<< 6 ||| p.n.toNat <<< 7

/-- Mirrors `impl Default for Status` (`i`, `x`, `m` set, the rest clear). -/
def Status.default : Status :=
  { c := false, z := false, i := true, d := false,
    x := true, m := true, v := false, n := false }

/-- Each packed status bit recovers the corresponding flag. -/
theorem statusToU8_testBit (p : Status) :
    (statusToU8 p).testBit 0 = p.c ∧ (statusToU8 p).testBit 1 = p.z ∧
    (statusToU8 p).testBit 2 = p.i ∧ (statusToU8 p).testBit 3 = p.d ∧
    (statusToU8 p).testBit 4 = p.x ∧ (statusToU8 p).testBit 5 = p.m ∧
    (statusToU8 p).testBit 6 = p.v ∧ (statusToU8 p).testBit 7 = p.n := by
  obtain ⟨c, z, i, d, x, m, v, n⟩ := p
  cases c <;> cases z <;> cases i <;> cases d <;> cases x <;> cases m <;> cases v <;> cases n <;>
    exact ⟨by decide, by decide, by decide, by decide, by decide, by decide, by decide, by decide⟩

/-! ## CPU state (src/cpu.rs, `struct Cpu`) -/

/-- CPU register file, mirroring `cpu.rs` `struct Cpu` (the debug-only
instruction counter and clock watermark are omitted). -/
structure Cpu where
  a : Nat
  x : Nat
  y : Nat
  pc : Nat
  s : Nat
  p : Status
  d : Nat
  db : Nat
  pb : Nat
  e : Bool
  stop : Bool
  halt : Bool
deriving DecidableEq, Repr

/-- Mirrors `impl Default for Cpu`. -/
def Cpu.default : Cpu :=
  { a := 0, x := 0, y := 0, pc := 0, s := 0x01FF, p := Status.default,
    d := 0, db := 0, pb := 0, e := true, stop := false, halt := false }

/-- The bus as seen by the CPU for reads: a pure byte function.  This
abstracts `context::Bus::bus_read`. -/
def Mem : Type := Nat → Nat

/-- A bus read returns a `u8`, hence the `% 256`. -/
def busRead (mem : Mem) (addr : Nat) : Nat := mem addr % 256

/-- Mirrors `WarpAddress::offset` in `WarpMode::NoWarp`:
`(self.addr + offset) & 0xFFFFFF`. -/
def noWarpOffset (addr off : Nat) : Nat := (addr + off) &&& 0xFFFFFF

/-- Mirrors `WarpAddress::read_16` for a `NoWarp` address: little-endian
16-bit read. -/
def read16NoWarp (mem : Mem) (addr : Nat) : Nat :=
  let lo := busRead mem addr
  let hi := busRead mem (noWarpOffset addr 1)
  hi <<< 8 ||| lo

/-- Mirrors the constant `RESET_VECTOR` in `cpu.rs`. -/
def RESET_VECTOR : Nat := 0xFFFC

/-- Mirrors the constant `CPU_CYCLE` in `cpu.rs`. -/
def CPU_CYCLE : Nat := 6

/-- Mirrors `Cpu::reset`: load PC from the reset vector, clear the
registers, and elapse 170 clocks (returned as the second component). -/
def Cpu.reset (mem : Mem) (cpu : Cpu) : Cpu × Nat :=
  ({ cpu with
      pc := read16NoWarp mem RESET_VECTOR
      a := 0
      x := 0
      y := 0
      s := 0x01FF
      p := Status.default
      d := 0
      db := 0
      pb := 0
      e := true }, 170)

/-- Mirrors `Cpu::get_pc24`. -/
def Cpu.get_pc24 (cpu : Cpu) : Nat := (cpu.pb <<< 16) ||| cpu.pc

/-- Mirrors `Cpu::fetch_8`: read one byte at PB:PC and advance PC with
16-bit wraparound. -/
def Cpu.fetch_8 (mem : Mem) (cpu : Cpu) : Nat × Cpu :=
  (busRead mem cpu.get_pc24, { cpu with pc := (cpu.pc + 1) % 65536 })

/-- Mirrors `Cpu::rep`: fetch the operand and clear the masked status bits
(`p & !data`; the `u8` complement of the operand is `0xFF ^^^ data`).  Note
the Rust code performs no adjustment for the emulation flag. -/
def Cpu.rep (mem : Mem) (cpu : Cpu) : Cpu × Nat :=
  let (dta, cpu) := cpu.fetch_8 mem
  ({ cpu with p := statusFromU8 (statusToU8 cpu.p &&& (0xFF ^^^ dta)) }, CPU_CYCLE)

/-- Mirrors `Cpu::sep`: fetch the operand and set the masked status bits
(`p | data`). -/
def Cpu.sep (mem : Mem) (cpu : Cpu) : Cpu × Nat :=
  let (dta, cpu) := cpu.fetch_8 mem
  ({ cpu with p := statusFromU8 (statusToU8 cpu.p ||| dta) }, CPU_CYCLE)

/-! ## Claim C1: reset state -/

/-- Claim C1: after `Cpu::reset`, E is set, the status register has
M=X=I=1 and D=0, the D/DB/PB registers are zero, S is 0x01FF (so its high
byte is 0x01), and PC holds the little-endian 16-bit value read through
the bus from 0xFFFC and 0xFFFD. -/
theorem C1_reset_state (mem : Mem) (cpu : Cpu) :
    (Cpu.reset mem cpu).1.e = true ∧
    (Cpu.reset mem cpu).1.p.m = true ∧
    (Cpu.reset mem cpu).1.p.x = true ∧
    (Cpu.reset mem cpu).1.p.i = true ∧
    (Cpu.reset mem cpu).1.p.d = false ∧
    (Cpu.reset mem cpu).1.d = 0 ∧
    (Cpu.reset mem cpu).1.db = 0 ∧
    (Cpu.reset mem cpu).1.pb = 0 ∧
    (Cpu.reset mem cpu).1.s = 0x01FF ∧
    (Cpu.reset mem cpu).1.s &&& 0xFF00 = 0x0100 ∧
    (Cpu.reset mem cpu).1.pc = 256 * (mem 0xFFFD % 256) + mem 0xFFFC % 256 := by
  refine ⟨rfl, rfl, rfl, rfl, rfl, rfl, rfl, rfl, rfl, ?_, ?_⟩
  · show (0x01FF : Nat) &&& 0xFF00 = 0x0100
    decide
  show read16NoWarp mem RESET_VECTOR = _
  have hoff : noWarpOffset RESET_VECTOR 1 = 0xFFFD := by decide
  rw [read16NoWarp, hoff]
  exact lor_shift8 _ _ (Nat.mod_lt _ (by norm_num))

/-! ## Claim C3: REP/SEP versus the emulation flag -/

/-- Claim C3 counterexample: with E set and the status flags at their
reset defaults (M=X=1), executing REP with operand 0x30 clears both M and
X, contradicting the claim that E being set forces M=X=1 after REP. -/
theorem C3_rep_e_counterexample :
    ((Cpu.default.rep (fun _ => 0x30)).1.e = true ∧
     (Cpu.default.rep (fun _ => 0x30)).1.p.m = false ∧
     (Cpu.default.rep (fun _ => 0x30)).1.p.x = false) := by
  decide

/-- Claim C3 amended: REP and SEP modify P purely by bitmask — REP clears
and SEP sets exactly the operand bits — and the emulation flag E plays no
role: it is left unchanged and does not force the stored M and X flags to
remain 1 (this holds for every CPU state, in particular states with
E=true). -/
theorem C3_rep_sep_bitmask (mem : Mem) (cpu : Cpu) :
    ((Cpu.rep mem cpu).1.p.m = (cpu.p.m && !(busRead mem cpu.get_pc24).testBit 5)) ∧
    ((Cpu.rep mem cpu).1.p.x = (cpu.p.x && !(busRead mem cpu.get_pc24).testBit 4)) ∧
    ((Cpu.rep mem cpu).1.e = cpu.e) ∧
    ((Cpu.sep mem cpu).1.p.m = (cpu.p.m || (busRead mem cpu.get_pc24).testBit 5)) ∧
    ((Cpu.sep mem cpu).1.p.x = (cpu.p.x || (busRead mem cpu.get_pc24).testBit 4)) ∧
    ((Cpu.sep mem cpu).1.e = cpu.e) := by
  have hm := (statusToU8_testBit cpu.p).2.2.2.2.2.1
  have hx := (statusToU8_testBit cpu.p).2.2.2.2.1
  refine ⟨?_, ?_, rfl, ?_, ?_, rfl⟩
  · show (((statusToU8 cpu.p &&& (0xFF ^^^ busRead mem cpu.get_pc24)) >>> 5) &&& 1 == 1) =
      (cpu.p.m && !(busRead mem cpu.get_pc24).testBit 5)
    rw [shift_and_one_beq, Nat.testBit_land, xorFF_testBit _ 5 (by norm_num), hm]
  · show (((statusToU8 cpu.p &&& (0xFF ^^^ busRead mem cpu.get_pc24)) >>> 4) &&& 1 == 1) =
      (cpu.p.x && !(busRead mem cpu.get_pc24).testBit 4)
    rw [shift_and_one_beq, Nat.testBit_land, xorFF_testBit _ 4 (by norm_num), hx]
  · show (((statusToU8 cpu.p ||| busRead mem cpu.get_pc24) >>> 5) &&& 1 == 1) =
      (cpu.p.m || (busRead mem cpu.get_pc24).testBit 5)
    rw [shift_and_one_beq, Nat.testBit_lor, hm]
  · show (((statusToU8 cpu.p ||| busRead mem cpu.get_pc24) >>> 4) &&& 1 == 1) =
      (cpu.p.x || (busRead mem cpu.get_pc24).testBit 4)
    rw [shift_and_one_beq, Nat.testBit_lor, hx]

/-! ## Interrupt entry (src/cpu.rs, `Cpu::exeption`) -/

/-- CPU execution state for stateful steps: the register file plus the
trace of bus writes (address, byte) issued so far. -/
structure Exec where
  cpu : Cpu
  writes : List (Nat × Nat)
deriving Repr

/-- Mirrors `Cpu::push_8`: write the byte at the current stack pointer,
then decrement S (within page 1 when E is set, with 16-bit wraparound
otherwise). -/
def Exec.push_8 (st : Exec) (dta : Nat) : Exec :=
  let s := st.cpu.s
  let s' := if st.cpu.e then (s &&& 0xFF00) ||| ((s % 256 + 255) % 256)
            else (s + 65535) % 65536
  { cpu := { st.cpu with s := s' }, writes := st.writes ++ [(s, dta % 256)] }

/-- Mirrors `Cpu::push_16`: push the high byte, then the low byte. -/
def Exec.push_16 (st : Exec) (dta : Nat) : Exec :=
  (st.push_8 ((dta >>> 8) % 256)).push_8 (dta % 256)

/-- Mirrors `enum Exeption` (spelling kept from the source). -/
inductive Exeption where
  | cop
  | brk
  | abort
  | nmi
  | irq
  | reset
deriving DecidableEq, Repr

/-- Mirrors `Cpu::get_interrupt_vector`. -/
def get_interrupt_vector (e : Bool) (ex : Exeption) : Nat :=
  match ex with
  | .cop => if e then 0xFFF4 else 0xFFE4
  | .brk => if e then 0xFFFE else 0xFFE6
  | .abort => if e then 0xFFF8 else 0xFFE8
  | .nmi => if e then 0xFFFA else 0xFFEA
  | .irq => if e then 0xFFFE else 0xFFEE
  | .reset => 0xFFFC

/-- Mirrors `Cpu::exeption`: clear the halt latch; in emulation mode
overwrite the X status bit with the break flag; push PB in native mode
only; push PC and P; set I; zero PB; load PC from the interrupt vector.
Note that the source never touches the D status flag here. -/
def Cpu.exeption (mem : Mem) (ex : Exeption) (st : Exec) : Exec :=
  let st := { st with cpu := { st.cpu with halt := false } }
  let st := if st.cpu.e then
      { st with cpu := { st.cpu with
          p := { st.cpu.p with x := (ex == .brk || ex == .cop) } } }
    else st
  let st := if st.cpu.e then st else st.push_8 st.cpu.pb
  let st := st.push_16 st.cpu.pc
  let st := st.push_8 (statusToU8 st.cpu.p)
  { st with cpu := { st.cpu with
      p := { st.cpu.p with i := true },
      pb := 0,
      pc := read16NoWarp mem (get_interrupt_vector st.cpu.e ex) } }

/-- The packed status byte is a byte. -/
theorem statusToU8_lt (p : Status) : statusToU8 p < 256 := by
  obtain ⟨c, z, i, d, x, m, v, n⟩ := p
  cases c <;> cases z <;> cases i <;> cases d <;> cases x <;> cases m <;> cases v <;> cases n <;>
    decide

/-- Emulation-mode stack decrement: for a stack pointer inside page 1,
`s & 0xFF00 | (s as u8).wrapping_sub(1)` is plain `s - 1`. -/
theorem emu_stack_dec (s : Nat) (h1 : 0x101 ≤ s) (h2 : s ≤ 0x1FF) :
    (s &&& 0xFF00) ||| ((s % 256 + 255) % 256) = s - 1 := by
  interval_cases s <;> decide

/-! ## Claim C2: NMI service -/

/-- Claim C2 counterexample: servicing an NMI does not clear the D status
flag.  Concrete native-mode state with D set: after `Cpu::exeption` for
NMI, D is still set, contradicting the claim that the CPU clears P.D. -/
theorem C2_nmi_d_counterexample :
    (Cpu.exeption (fun _ => 0) Exeption.nmi
        ⟨{ Cpu.default with
            e := false
            p := { Status.default with d := true }
            pc := 0x1234
            s := 0x1FF0
            pb := 0x12 }, []⟩).cpu.p.d = true := by
  decide

/-- Claim C2 amended: when the CPU services an NMI it pushes PB (in
native mode only), then PC (high byte first), then P, sets P.I to 1,
leaves P.D unchanged (the code does not clear it), zeroes PB, and loads
PC from the little-endian 16-bit NMI vector (0xFFEA/0xFFEB in native
mode, 0xFFFA/0xFFFB in emulation mode); in emulation mode the X status
bit is overwritten with the break flag (false for NMI) before P is
pushed. -/
theorem C2_nmi_service (mem : Mem) (st : Exec) (hpb : st.cpu.pb < 256) :
    ((Cpu.exeption mem .nmi st).cpu.p.i = true) ∧
    ((Cpu.exeption mem .nmi st).cpu.p.d = st.cpu.p.d) ∧
    ((Cpu.exeption mem .nmi st).cpu.pb = 0) ∧
    ((Cpu.exeption mem .nmi st).cpu.halt = false) ∧
    ((Cpu.exeption mem .nmi st).cpu.pc =
      256 * (mem (if st.cpu.e then 0xFFFB else 0xFFEB) % 256) +
        mem (if st.cpu.e then 0xFFFA else 0xFFEA) % 256) ∧
    (st.cpu.e = false → 3 ≤ st.cpu.s → st.cpu.s < 65536 →
      (Cpu.exeption mem .nmi st).writes = st.writes ++
        [(st.cpu.s, st.cpu.pb), (st.cpu.s - 1, (st.cpu.pc >>> 8) % 256),
         (st.cpu.s - 2, st.cpu.pc % 256), (st.cpu.s - 3, statusToU8 st.cpu.p)]) ∧
    (st.cpu.e = true → 0x103 ≤ st.cpu.s → st.cpu.s ≤ 0x1FF →
      (Cpu.exeption mem .nmi st).writes = st.writes ++
        [(st.cpu.s, (st.cpu.pc >>> 8) % 256),
         (st.cpu.s - 1, st.cpu.pc % 256),
         (st.cpu.s - 2, statusToU8 { st.cpu.p with x := false })]) := by
  have hst8 : ∀ q : Status, statusToU8 q % 256 = statusToU8 q :=
    fun q => Nat.mod_eq_of_lt (statusToU8_lt q)
  have hmm : ∀ t : Nat, t % 256 % 256 = t % 256 := fun t => Nat.mod_mod_of_dvd _ dvd_rfl
  cases he : st.cpu.e
  · simp only [Cpu.exeption, Exec.push_16, Exec.push_8, he, if_neg, Bool.false_eq_true,
      not_false_eq_true, if_false, List.append_assoc]
    refine ⟨trivial, trivial, trivial, trivial, ?_, ?_, by simp⟩
    · show read16NoWarp mem (get_interrupt_vector false .nmi) = _
      have hoff : noWarpOffset (get_interrupt_vector false Exeption.nmi) 1 = 0xFFEB := by decide
      rw [read16NoWarp, hoff]
      exact lor_shift8 _ _ (Nat.mod_lt _ (by norm_num))
    · intro _ hs3 hs
      have e1 : (st.cpu.s + 65535) % 65536 = st.cpu.s - 1 := by omega
      have e2 : (st.cpu.s - 1 + 65535) % 65536 = st.cpu.s - 2 := by omega
      have e3 : (st.cpu.s - 2 + 65535) % 65536 = st.cpu.s - 3 := by omega
      rw [e1, e2, e3, hst8, hmm, hmm, Nat.mod_eq_of_lt hpb]
      simp
  · simp only [Cpu.exeption, Exec.push_16, Exec.push_8, he, if_pos, List.append_assoc]
    refine ⟨trivial, trivial, trivial, trivial, ?_, by simp, ?_⟩
    · show read16NoWarp mem (get_interrupt_vector true .nmi) = _
      have hoff : noWarpOffset (get_interrupt_vector true Exeption.nmi) 1 = 0xFFFB := by decide
      rw [read16NoWarp, hoff]
      exact lor_shift8 _ _ (Nat.mod_lt _ (by norm_num))
    · intro _ hs3 hs
      have e1 : (st.cpu.s &&& 0xFF00) ||| (st.cpu.s % 256 + 255) % 256 = st.cpu.s - 1 :=
        emu_stack_dec _ (by omega) (by omega)
      rw [e1]
      have e2 : (st.cpu.s - 1 &&& 0xFF00) ||| ((st.cpu.s - 1) % 256 + 255) % 256 = st.cpu.s - 2 :=
        emu_stack_dec _ (by omega) (by omega)
      rw [e2, hst8, hmm, hmm]
      simp
      rfl

/-- Claim C2 witness: the amended NMI-service theorem applied to a
concrete native-mode state, with the push trace fully evaluated. -/
theorem C2_nmi_service_witness :
    ((Cpu.exeption (fun _ => 0xAB) Exeption.nmi
        ⟨{ Cpu.default with
            e := false
            pc := 0x1234
            s := 0x1FF0
            pb := 0x56 }, []⟩).cpu.p.i = true) ∧
    ((Cpu.exeption (fun _ => 0xAB) Exeption.nmi
        ⟨{ Cpu.default with
            e := false
            pc := 0x1234
            s := 0x1FF0
            pb := 0x56 }, []⟩).writes =
      [(0x1FF0, 0x56), (0x1FEF, 0x12), (0x1FEE, 0x34), (0x1FED, 0x34)]) := by
  have h := C2_nmi_service (fun _ => 0xAB)
    ⟨{ Cpu.default with
        e := false
        pc := 0x1234
        s := 0x1FF0
        pb := 0x56 }, []⟩ (by decide)
  refine ⟨h.1, ?_⟩
  have h2 := h.2.2.2.2.2.1 rfl (by decide) (by decide)
  rw [h2]
  decide

/-! ## Binary ADC/SBC (src/cpu.rs, `Cpu::bin_add_8` and friends) -/

/-- Wrapping subtraction on `u32`, as used by `bin_sub_8`/`bin_sub_16`. -/
def u32_wrapping_sub (x y : Nat) : Nat :=
  (x + 0x100000000 - y % 0x100000000) % 0x100000000

/-- Mirrors `Cpu::bin_add_8`: returns (result byte, carry flag, overflow
flag).  The operands are `u8` values widened to `u32`, so the sum is
exact. -/
def bin_add_8 (c : Bool) (a b : Nat) : Nat × Bool × Bool :=
  let s := a + b + c.toNat
  (s % 256, decide (s > 0xFF),
    decide ((((0xFFFFFFFF ^^^ (a ^^^ b)) &&& (a ^^^ s)) &&& 0x80) ≠ 0))

/-- Mirrors `Cpu::bin_add_16`. -/
def bin_add_16 (c : Bool) (a b : Nat) : Nat × Bool × Bool :=
  let s := a + b + c.toNat
  (s % 65536, decide (s > 0xFFFF),
    decide ((((0xFFFFFFFF ^^^ (a ^^^ b)) &&& (a ^^^ s)) &&& 0x8000) ≠ 0))

/-- Mirrors `Cpu::bin_sub_8`: borrow is the complement of the carry; the
subtraction wraps in `u32`; the new carry records the absence of a
borrow (`c < 0x100`). -/
def bin_sub_8 (c : Bool) (a b : Nat) : Nat × Bool × Bool :=
  let borrow := (!c).toNat
  let s := u32_wrapping_sub (u32_wrapping_sub a b) borrow
  (s % 256, decide (s < 0x100),
    decide ((((a ^^^ b) &&& (a ^^^ s)) &&& 0x80) ≠ 0))

/-- Mirrors `Cpu::bin_sub_16`. -/
def bin_sub_16 (c : Bool) (a b : Nat) : Nat × Bool × Bool :=
  let borrow := (!c).toNat
  let s := u32_wrapping_sub (u32_wrapping_sub a b) borrow
  (s % 65536, decide (s < 0x10000),
    decide ((((a ^^^ b) &&& (a ^^^ s)) &&& 0x8000) ≠ 0))

/-! ## Claim C7: ADC then SBC round-trip -/

/-- Claim C7: in binary mode, executing ADC with carry clear and then SBC
with the same operand and carry set returns the accumulator to its
original value, both for the 8-bit and for the 16-bit ALU. -/
theorem C7_adc_sbc_roundtrip (a b a16 b16 : Nat)
    (ha : a < 256) (hb : b < 256) (ha16 : a16 < 65536) (hb16 : b16 < 65536) :
    (bin_sub_8 true (bin_add_8 false a b).1 b).1 = a ∧
    (bin_sub_16 true (bin_add_16 false a16 b16).1 b16).1 = a16 := by
  simp only [bin_add_8, bin_sub_8, bin_add_16, bin_sub_16, u32_wrapping_sub,
    Bool.toNat_false, Bool.not_true]
  omega

/-- Claim C7 witness: the round-trip theorem at concrete operands. -/
theorem C7_adc_sbc_roundtrip_witness :
    (bin_sub_8 true (bin_add_8 false 0xC3 0xFA).1 0xFA).1 = 0xC3 ∧
    (bin_sub_16 true (bin_add_16 false 0x1234 0xFFFF).1 0xFFFF).1 = 0x1234 :=
  C7_adc_sbc_roundtrip 0xC3 0xFA 0x1234 0xFFFF (by decide) (by decide) (by decide) (by decide)

/-! ## Interrupt state and the $4210 register (src/interrupt.rs, src/bus.rs) -/

/-- Mirrors `interrupt.rs` `struct Interrupt`. -/
structure Interrupt where
  nmi_flag : Bool
  nmi_enable : Bool
  nmi : Bool
  nmi_raise : Bool
  hv_irq_enable : Nat
  h_count : Nat
  v_count : Nat
  irq : Bool
  joypad_enable : Bool
deriving DecidableEq, Repr

/-- Mirrors `Interrupt::get_nmi_flag`: return the flag and clear it
(read-to-clear). -/
def Interrupt.get_nmi_flag (it : Interrupt) : Bool × Interrupt :=
  (it.nmi_flag, { it with nmi_flag := false })

/-- Mirrors the `0x4210` arm of `Bus::read` together with the
`self.open_bus = data` tail of `Bus::read`: the returned byte is
`nmi_flag << 7 | cpu_version | open_bus & 0x70`, and it becomes the new
open-bus byte.  Result: (value, new open-bus byte, new interrupt
state). -/
def read_4210 (open_bus : Nat) (it : Interrupt) : Nat × Nat × Interrupt :=
  let (nmi_flag, it) := it.get_nmi_flag
  let cpu_version := 2
  let dta := (nmi_flag.toNat <<< 7) ||| cpu_version ||| (open_bus &&& 0x70)
  (dta, dta, it)

/-- Bits 4-6 of the open-bus contribution vanish under the low-nibble
mask. -/
theorem and70_andF (ob : Nat) : (ob &&& 0x70) &&& 0xF = 0 := by
  rw [Nat.land_assoc]
  have h : (0x70 : Nat) &&& 0xF = 0 := by decide
  simp [h]

/-- The open-bus contribution of $4210 is idempotent under the 0x70
mask. -/
theorem and70_and70 (ob : Nat) : (ob &&& 0x70) &&& 0x70 = ob &&& 0x70 := by
  rw [Nat.land_assoc]
  have h : (0x70 : Nat) &&& 0x70 = 0x70 := by decide
  rw [h]

/-- The open-bus contribution of $4210 never reaches bit 7. -/
theorem and70_testBit7 (ob : Nat) : (ob &&& 0x70).testBit 7 = false := by
  rw [Nat.testBit_land]
  have h : Nat.testBit 0x70 7 = false := by decide
  simp [h]

/-! ## Claim C5: reading $4210 -/

/-- Claim C5 counterexample: with the open-bus byte 0x70 and the NMI flag
set, the second consecutive read of $4210 returns 0x72, not just the CPU
version 2 — the claim that the second read returns only the version fails
because bits 4-6 of the result come from the open bus. -/
theorem C5_second_read_counterexample :
    (read_4210 (read_4210 0x70 ⟨true, false, false, false, 0, 0, 0, false, false⟩).2.1
        (read_4210 0x70 ⟨true, false, false, false, 0, 0, 0, false, false⟩).2.2).1 = 0x72 ∧
    (0x72 : Nat) ≠ 2 := by
  decide

/-- Claim C5 amended: a read of $4210 returns the NMI flag in bit 7 and
the CPU version 2 in the low four bits (bits 4-6 echo the open bus), and
clears the NMI flag; with no intervening NMI a second read has bit 7
clear and returns the version together with the original open-bus bits
4-6 — exactly the version when those bits are zero. -/
theorem C5_read_4210 (ob : Nat) (it : Interrupt) :
    ((read_4210 ob it).1.testBit 7 = it.nmi_flag) ∧
    ((read_4210 ob it).1 &&& 0xF = 2) ∧
    ((read_4210 ob it).2.2.nmi_flag = false) ∧
    ((read_4210 ob it).2.1 = (read_4210 ob it).1) ∧
    ((read_4210 (read_4210 ob it).2.1 (read_4210 ob it).2.2).1 = 2 ||| (ob &&& 0x70)) ∧
    ((read_4210 (read_4210 ob it).2.1 (read_4210 ob it).2.2).1.testBit 7 = false) ∧
    (ob &&& 0x70 = 0 →
      (read_4210 (read_4210 ob it).2.1 (read_4210 ob it).2.2).1 = 2) := by
  have hbit7 : ∀ (f : Bool) (x : Nat),
      (f.toNat <<< 7 ||| 2 ||| (x &&& 0x70)).testBit 7 = f := by
    intro f x
    cases f <;> simp +decide [Nat.testBit_lor, Nat.testBit_shiftLeft, Nat.testBit_land]
  have l1 : (2 : Nat) &&& 0xF = 2 := by decide
  have l2 : (128 : Nat) &&& 0xF = 0 := by decide
  have l3 : (2 : Nat) &&& 0x70 = 0 := by decide
  have l4 : (128 : Nat) &&& 0x70 = 0 := by decide
  have handF : ∀ (f : Bool) (x : Nat),
      (f.toNat <<< 7 ||| 2 ||| (x &&& 0x70)) &&& 0xF = 2 := by
    intro f x
    rw [Nat.and_distrib_right, Nat.and_distrib_right, and70_andF]
    cases f <;> simp [l1, l2]
  have hand70 : ∀ (f : Bool) (x : Nat),
      (f.toNat <<< 7 ||| 2 ||| (x &&& 0x70)) &&& 0x70 = x &&& 0x70 := by
    intro f x
    rw [Nat.and_distrib_right, Nat.and_distrib_right, and70_and70]
    cases f <;> simp [l3, l4]
  have hval : ∀ (x : Nat) (jt : Interrupt),
      (read_4210 x jt).1 = jt.nmi_flag.toNat <<< 7 ||| 2 ||| (x &&& 0x70) := fun _ _ => rfl
  have hsnd : ∀ (x : Nat) (jt : Interrupt), (read_4210 x jt).2.1 = (read_4210 x jt).1 :=
    fun _ _ => rfl
  have hflag : ∀ (x : Nat) (jt : Interrupt), (read_4210 x jt).2.2.nmi_flag = false :=
    fun _ _ => rfl
  refine ⟨?_, ?_, hflag ob it, hsnd ob it, ?_, ?_, ?_⟩
  · rw [hval]
    exact hbit7 _ _
  · rw [hval]
    exact handF _ _
  · rw [hval, hflag, hsnd, hval, Bool.toNat_false, hand70]
    simp
  · rw [hval, hflag, hsnd, hval, Bool.toNat_false, hand70]
    simp +decide [Nat.testBit_lor, Nat.testBit_land]
  · intro h0
    rw [hval, hflag, hsnd, hval, Bool.toNat_false, hand70, h0]
    decide

/-- Claim C5 witness: the amended $4210 theorem at a concrete state with
zero open-bus bits, where the second read returns exactly the version. -/
theorem C5_read_4210_witness :
    ((read_4210 0 ⟨true, true, false, false, 0, 0, 0, false, false⟩).1.testBit 7 = true) ∧
    ((read_4210 (read_4210 0 ⟨true, true, false, false, 0, 0, 0, false, false⟩).2.1
        (read_4210 0 ⟨true, true, false, false, 0, 0, 0, false, false⟩).2.2).1 = 2) := by
  have h := C5_read_4210 0 ⟨true, true, false, false, 0, 0, 0, false, false⟩
  exact ⟨h.1, h.2.2.2.2.2.2 (by decide)⟩

/-! ## CGRAM data port (src/ppu.rs, `Ppu::write`, register $2122) -/

/-- The PPU state touched by the CGRAM data port: the palette RAM (256
16-bit entries), the CGRAM byte address, and the latched low byte.
Mirrors the corresponding fields of `ppu.rs` `struct Ppu`. -/
structure PpuCgram where
  cgram : List Nat
  palette_cgram_addr : Nat
  palette_cgram_lsb : Nat
deriving DecidableEq, Repr

/-- Mirrors the `0x2122` arm of `Ppu::write`: an even byte address only
latches the low byte; an odd byte address commits
`data << 8 | latched low byte` to entry `addr / 2`; the byte address then
advances modulo 0x200. -/
def ppu_write_2122 (p : PpuCgram) (dta : Nat) : PpuCgram :=
  let entry := (dta <<< 8) ||| p.palette_cgram_lsb
  let p :=
    if p.palette_cgram_addr &&& 1 = 0 then
      { p with palette_cgram_lsb := dta }
    else
      { p with cgram := p.cgram.set (p.palette_cgram_addr / 2) entry }
  { p with palette_cgram_addr := (p.palette_cgram_addr + 1) &&& 0x1FF }

/-! ## Claim C8: CGRAM low-byte latch -/

/-- Claim C8: writing $2122 at an even CGRAM byte address only latches
the value as the pending low byte and leaves the palette RAM unchanged;
the following odd-address write commits `high << 8 | latched low` to the
16-bit entry at `addr / 2` and leaves the latch as the sole carrier of
the low byte, so the word becomes visible only after the high-byte
write. -/
theorem C8_cgram_latch (p : PpuCgram) (d1 d2 : Nat)
    (heven : p.palette_cgram_addr % 2 = 0) (hlt : p.palette_cgram_addr < 0x200) :
    ((ppu_write_2122 p d1).cgram = p.cgram) ∧
    ((ppu_write_2122 p d1).palette_cgram_lsb = d1) ∧
    ((ppu_write_2122 p d1).palette_cgram_addr = p.palette_cgram_addr + 1) ∧
    ((ppu_write_2122 (ppu_write_2122 p d1) d2).cgram =
      p.cgram.set (p.palette_cgram_addr / 2) ((d2 <<< 8) ||| d1)) := by
  have hand1 : ∀ t : Nat, t &&& 1 = t % 2 := Nat.and_one_is_mod
  have hmask : (p.palette_cgram_addr + 1) &&& 0x1FF = p.palette_cgram_addr + 1 := by
    have h1 := Nat.and_pow_two_sub_one_eq_mod (p.palette_cgram_addr + 1) 9
    norm_num at h1
    omega
  have hfirst : ppu_write_2122 p d1 =
      { p with palette_cgram_lsb := d1, palette_cgram_addr := p.palette_cgram_addr + 1 } := by
    rw [ppu_write_2122]
    rw [if_pos (by rw [hand1]; exact heven)]
    rw [hmask]
  have hodd : (p.palette_cgram_addr + 1) &&& 1 ≠ 0 := by
    rw [hand1]
    omega
  refine ⟨by rw [hfirst], by rw [hfirst], by rw [hfirst], ?_⟩
  rw [hfirst, ppu_write_2122]
  rw [if_neg hodd]
  have hdiv : (p.palette_cgram_addr + 1) / 2 = p.palette_cgram_addr / 2 := by omega
  rw [hdiv]

/-- Claim C8 witness: the latch theorem at a concrete PPU state. -/
theorem C8_cgram_latch_witness :
    ((ppu_write_2122 ⟨[7, 7, 7, 7], 4, 0⟩ 0xCD).cgram = [7, 7, 7, 7]) ∧
    ((ppu_write_2122 (ppu_write_2122 ⟨[7, 7, 7, 7], 4, 0⟩ 0xCD) 0xAB).cgram =
      [7, 7, (0xAB <<< 8) ||| 0xCD, 7]) := by
  have h := C8_cgram_latch ⟨[7, 7, 7, 7], 4, 0⟩ 0xCD 0xAB (by decide) (by decide)
  exact ⟨h.1, h.2.2.2⟩

/-! ## Cartridge mapping (src/cartridge.rs) -/

/-- Mirrors `enum MapMode`. -/
inductive MapMode where
  | loRom
  | hiRom
  | sDd1
  | sA1
  | exHiRom
  | spc7110
deriving DecidableEq, Repr

/-- Abnormal terminations of the Rust code: `unreachable!()` and
`unimplemented!()` macros, and the arithmetic panic raised by `%` with a
zero divisor. -/
inductive RustPanic where
  | unreachableHit
  | remainderByZero
  | unimplementedHit
deriving DecidableEq, Repr

/-- Mirrors `struct Cartridge` (the parsed header is reduced to the map
mode, the only header field the address translation consults). -/
structure Cartridge where
  map_mode : MapMode
  rom : List Nat
  sram : List Nat
deriving DecidableEq, Repr

/-- Mirrors `parse_header` for the RAM-size byte at offset base+0xD8:
`0` stays `0`, otherwise `1 << n` (KiB). -/
def header_ram_size (b : Nat) : Nat := if b = 0 then 0 else 1 <<< b

/-- Mirrors `Cartridge::new`: the SRAM vector holds `ram_size * 1024`
zero bytes. -/
def new_sram (ram_size : Nat) : List Nat := List.replicate (ram_size * 1024) 0

/-- Mirrors `Cartridge::read`.  Panicking paths (`unreachable!`, `%` by a
zero SRAM or ROM length) are surfaced as `Except.error`; in-range
indexing (the index is always reduced modulo the length) uses `getD`. -/
def Cartridge.read (c : Cartridge) (addr : Nat) : Except RustPanic Nat :=
  match c.map_mode with
  | MapMode.loRom =>
    if h1 : addr >>> 16 ≤ 0x7D then c.read (addr + 0x800000)
    else if addr >>> 16 ≤ 0x7F then Except.error RustPanic.unreachableHit
    else if addr >>> 16 ≤ 0xFF then
      if addr &&& 0xFFFF ≤ 0x7FFF then
        if addr >>> 16 ≤ 0xBF then Except.error RustPanic.unreachableHit
        else if h2 : addr >>> 16 ≤ 0xEF then c.read (addr + 0x8000)
        else
          let sram_offset := ((addr >>> 16) - 0xF0) * 1024 * 32 + (addr &&& 0xFFFF)
          if c.sram.length = 0 then Except.error RustPanic.remainderByZero
          else Except.ok (c.sram.getD (sram_offset % c.sram.length) 0)
      else
        let rom_offset := ((addr >>> 16) - 0x80) * 1024 * 32 + ((addr &&& 0xFFFF) - 0x8000)
        if c.rom.length = 0 then Except.error RustPanic.remainderByZero
        else Except.ok (c.rom.getD (rom_offset % c.rom.length) 0)
    else Except.error RustPanic.unreachableHit
  | MapMode.hiRom =>
    if addr >>> 16 ≤ 0x3F then
      if addr &&& 0xFFFF ≤ 0x5FFF then Except.error RustPanic.unreachableHit
      else if addr &&& 0xFFFF ≤ 0x7FFF then
        let sram_offset := (addr >>> 16) * 1024 * 8 + ((addr &&& 0xFFFF) - 0x6000)
        if c.sram.length = 0 then Except.error RustPanic.remainderByZero
        else Except.ok (c.sram.getD (sram_offset % c.sram.length) 0)
      else
        if c.rom.length = 0 then Except.error RustPanic.remainderByZero
        else Except.ok (c.rom.getD (addr % c.rom.length) 0)
    else if addr >>> 16 ≤ 0x7D then
      if c.rom.length = 0 then Except.error RustPanic.remainderByZero
      else Except.ok (c.rom.getD ((addr - 0x400000) % c.rom.length) 0)
    else if addr >>> 16 ≤ 0x7F then Except.error RustPanic.unreachableHit
    else if addr >>> 16 ≤ 0xBF then
      if addr &&& 0xFFFF ≤ 0x5FFF then Except.error RustPanic.unreachableHit
      else if addr &&& 0xFFFF ≤ 0x7FFF then
        let sram_offset := ((addr >>> 16) - 0x80) * 1024 * 8 + ((addr &&& 0xFFFF) - 0x6000)
        if c.sram.length = 0 then Except.error RustPanic.remainderByZero
        else Except.ok (c.sram.getD (sram_offset % c.sram.length) 0)
      else
        if c.rom.length = 0 then Except.error RustPanic.remainderByZero
        else Except.ok (c.rom.getD ((addr - 0x800000) % c.rom.length) 0)
    else if addr >>> 16 ≤ 0xFF then
      if c.rom.length = 0 then Except.error RustPanic.remainderByZero
      else Except.ok (c.rom.getD ((addr - 0xC00000) % c.rom.length) 0)
    else Except.error RustPanic.unreachableHit
  | _ => Except.error RustPanic.unimplementedHit
termination_by 0x2000000 - addr
decreasing_by
  all_goals simp only [Nat.shiftRight_eq_div_pow] at *
  all_goals omega

/-- Mirrors `Cartridge::write` (same translation as `Cartridge::read`,
updating the SRAM or ROM vector). -/
def Cartridge.write (c : Cartridge) (addr dta : Nat) : Except RustPanic Cartridge :=
  match c.map_mode with
  | MapMode.loRom =>
    if h1 : addr >>> 16 ≤ 0x7D then c.write (addr + 0x800000) dta
    else if addr >>> 16 ≤ 0x7F then Except.error RustPanic.unreachableHit
    else if addr >>> 16 ≤ 0xFF then
      if addr &&& 0xFFFF ≤ 0x7FFF then
        if addr >>> 16 ≤ 0xBF then Except.error RustPanic.unreachableHit
        else if h2 : addr >>> 16 ≤ 0xEF then c.write (addr + 0x8000) dta
        else
          let sram_offset := ((addr >>> 16) - 0xF0) * 1024 * 32 + (addr &&& 0xFFFF)
          if c.sram.length = 0 then Except.error RustPanic.remainderByZero
          else Except.ok { c with sram := c.sram.set (sram_offset % c.sram.length) dta }
      else
        let rom_offset := ((addr >>> 16) - 0x80) * 1024 * 32 + ((addr &&& 0xFFFF) - 0x8000)
        if c.rom.length = 0 then Except.error RustPanic.remainderByZero
        else Except.ok { c with rom := c.rom.set (rom_offset % c.rom.length) dta }
    else Except.error RustPanic.unreachableHit
  | MapMode.hiRom =>
    if addr >>> 16 ≤ 0x3F then
      if addr &&& 0xFFFF ≤ 0x5FFF then Except.error RustPanic.unreachableHit
      else if addr &&& 0xFFFF ≤ 0x7FFF then
        let sram_offset := (addr >>> 16) * 1024 * 8 + ((addr &&& 0xFFFF) - 0x6000)
        if c.sram.length = 0 then Except.error RustPanic.remainderByZero
        else Except.ok { c with sram := c.sram.set (sram_offset % c.sram.length) dta }
      else
        if c.rom.length = 0 then Except.error RustPanic.remainderByZero
        else Except.ok { c with rom := c.rom.set (addr % c.rom.length) dta }
    else if addr >>> 16 ≤ 0x7D then
      if c.rom.length = 0 then Except.error RustPanic.remainderByZero
      else Except.ok { c with rom := c.rom.set ((addr - 0x400000) % c.rom.length) dta }
    else if addr >>> 16 ≤ 0x7F then Except.error RustPanic.unreachableHit
    else if addr >>> 16 ≤ 0xBF then
      if addr &&& 0xFFFF ≤ 0x5FFF then Except.error RustPanic.unreachableHit
      else if addr &&& 0xFFFF ≤ 0x7FFF then
        let sram_offset := ((addr >>> 16) - 0x80) * 1024 * 8 + ((addr &&& 0xFFFF) - 0x6000)
        if c.sram.length = 0 then Except.error RustPanic.remainderByZero
        else Except.ok { c with sram := c.sram.set (sram_offset % c.sram.length) dta }
      else
        if c.rom.length = 0 then Except.error RustPanic.remainderByZero
        else Except.ok { c with rom := c.rom.set ((addr - 0x800000) % c.rom.length) dta }
    else if addr >>> 16 ≤ 0xFF then
      if c.rom.length = 0 then Except.error RustPanic.remainderByZero
      else Except.ok { c with rom := c.rom.set ((addr - 0xC00000) % c.rom.length) dta }
    else Except.error RustPanic.unreachableHit
  | _ => Except.error RustPanic.unimplementedHit
termination_by 0x2000000 - addr
decreasing_by
  all_goals simp only [Nat.shiftRight_eq_div_pow] at *
  all_goals omega

/-- The SRAM windows named by claim C10: for LoROM, banks $F0-$FF at
offsets $0000-$7FFF; for HiROM, banks $00-$3F and $80-$BF at offsets
$6000-$7FFF. -/
def in_sram_window (mode : MapMode) (addr : Nat) : Bool :=
  let bank := addr >>> 16
  let offset := addr &&& 0xFFFF
  match mode with
  | MapMode.loRom => 0xF0 ≤ bank && bank ≤ 0xFF && offset ≤ 0x7FFF
  | MapMode.hiRom =>
      (bank ≤ 0x3F || (0x80 ≤ bank && bank ≤ 0xBF)) && 0x6000 ≤ offset && offset ≤ 0x7FFF
  | _ => false

/-! ## Claim C6: unmapped cartridge accesses -/

/-- Claim C6 failing input: `Cartridge::read` does not return the open-bus
byte for addresses outside the mapped regions — it hits `unreachable!()`
and panics.  Evaluated here at a LoROM read in bank $80 at offset $0000
and at a HiROM read in bank $00 at offset $3000. -/
theorem C6_unmapped_read_panics :
    (Cartridge.read ⟨MapMode.loRom, [0], [0]⟩ 0x800000 =
      Except.error RustPanic.unreachableHit) ∧
    (Cartridge.read ⟨MapMode.hiRom, [0], [0]⟩ 0x003000 =
      Except.error RustPanic.unreachableHit) := by
  constructor
  · rw [Cartridge.read]
    simp only []
    rw [dif_neg (by decide), if_neg (by decide), if_pos (by decide), if_pos (by decide),
      if_pos (by decide)]
  · rw [Cartridge.read]
    simp only []
    rw [if_pos (by decide), if_pos (by decide)]

/-! ## Claim C10: SRAM accesses with a zero-length SRAM vector -/

/-- Claim C10: a cartridge whose header RAM-size byte is 0 gets a
zero-length SRAM vector, and then every `Cartridge::read` or
`Cartridge::write` at an address inside an SRAM window panics with a
remainder-by-zero in `sram_offset % self.sram.len()` instead of returning
a value. -/
theorem C10_sram_len_zero_panics (c : Cartridge) (addr dta : Nat)
    (hlen : c.sram.length = 0) (hw : in_sram_window c.map_mode addr = true) :
    ((new_sram (header_ram_size 0)).length = 0) ∧
    (c.read addr = Except.error RustPanic.remainderByZero) ∧
    (c.write addr dta = Except.error RustPanic.remainderByZero) := by
  refine ⟨by simp [new_sram, header_ram_size], ?_, ?_⟩
  · cases hmode : c.map_mode
    case sDd1 => simp [in_sram_window, hmode] at hw
    case sA1 => simp [in_sram_window, hmode] at hw
    case exHiRom => simp [in_sram_window, hmode] at hw
    case spc7110 => simp [in_sram_window, hmode] at hw
    case loRom =>
      simp only [in_sram_window, hmode, Bool.and_eq_true, decide_eq_true_eq] at hw
      obtain ⟨⟨hb1, hb2⟩, ho⟩ := hw
      rw [Cartridge.read, hmode]
      simp only []
      rw [dif_neg (by omega), if_neg (by omega), if_pos (by omega), if_pos (by omega),
        if_neg (by omega), dif_neg (by omega), if_pos hlen]
    case hiRom =>
      simp only [in_sram_window, hmode, Bool.and_eq_true, Bool.or_eq_true,
        decide_eq_true_eq] at hw
      obtain ⟨⟨hb, ho1⟩, ho2⟩ := hw
      rw [Cartridge.read, hmode]
      simp only []
      rcases hb with hb | ⟨hb1, hb2⟩
      · rw [if_pos (by omega), if_neg (by omega), if_pos (by omega), if_pos hlen]
      · rw [if_neg (by omega), if_neg (by omega), if_neg (by omega), if_pos (by omega),
          if_neg (by omega), if_pos (by omega), if_pos hlen]
  · cases hmode : c.map_mode
    case sDd1 => simp [in_sram_window, hmode] at hw
    case sA1 => simp [in_sram_window, hmode] at hw
    case exHiRom => simp [in_sram_window, hmode] at hw
    case spc7110 => simp [in_sram_window, hmode] at hw
    case loRom =>
      simp only [in_sram_window, hmode, Bool.and_eq_true, decide_eq_true_eq] at hw
      obtain ⟨⟨hb1, hb2⟩, ho⟩ := hw
      rw [Cartridge.write, hmode]
      simp only []
      rw [dif_neg (by omega), if_neg (by omega), if_pos (by omega), if_pos (by omega),
        if_neg (by omega), dif_neg (by omega), if_pos hlen]
    case hiRom =>
      simp only [in_sram_window, hmode, Bool.and_eq_true, Bool.or_eq_true,
        decide_eq_true_eq] at hw
      obtain ⟨⟨hb, ho1⟩, ho2⟩ := hw
      rw [Cartridge.write, hmode]
      simp only []
      rcases hb with hb | ⟨hb1, hb2⟩
      · rw [if_pos (by omega), if_neg (by omega), if_pos (by omega), if_pos hlen]
      · rw [if_neg (by omega), if_neg (by omega), if_neg (by omega), if_pos (by omega),
          if_neg (by omega), if_pos (by omega), if_pos hlen]

/-- Claim C10 witness: a LoROM cartridge with an empty SRAM vector panics
with remainder-by-zero on an SRAM-window read and write. -/
theorem C10_sram_len_zero_panics_witness :
    (Cartridge.read ⟨MapMode.loRom, [0], []⟩ 0xF00000 =
      Except.error RustPanic.remainderByZero) ∧
    (Cartridge.write ⟨MapMode.loRom, [0], []⟩ 0xF00000 5 =
      Except.error RustPanic.remainderByZero) := by
  have h := C10_sram_len_zero_panics ⟨MapMode.loRom, [0], []⟩ 0xF00000 5 (by decide) (by decide)
  exact ⟨h.2.1, h.2.2⟩

/-! ## DSP mixing (src/dsp.rs, `Dsp::tick`) -/

/-- Reinterpret a 16-bit pattern as a signed value (`as i16`). -/
def asI16 (n : Nat) : Int :=
  if n % 65536 < 32768 then (n % 65536 : Int) else (n % 65536 : Int) - 65536

/-- Reinterpret an 8-bit pattern as a signed value (`as i8`). -/
def asI8 (n : Nat) : Int :=
  if n % 256 < 128 then (n % 256 : Int) else (n % 256 : Int) - 256

/-- Arithmetic shift right on a signed value (Rust `>>` on `i32`):
floor division by a power of two. -/
def asr (x : Int) (k : Nat) : Int := Int.fdiv x (2 ^ k)

/-- Rust `i32::clamp`. -/
def i32_clamp (x lo hi : Int) : Int := if x < lo then lo else if x > hi then hi else x

/-- Bitwise complement of a signed value (Rust `!` on `i16`). -/
def i16_not (x : Int) : Int := -x - 1

/-- The per-voice state consumed by the mixing stage of `Dsp::tick`: the
current sample (an `i16` bit pattern, `voice_params.sample`) and the two
channel volumes (`i8` bit patterns, `voice_params.volume`). -/
structure VoiceParams where
  sample : Nat
  volume0 : Nat
  volume1 : Nat
deriving DecidableEq, Repr

/-- `voice_params.volume[i]`. -/
def VoiceParams.volume (vp : VoiceParams) (i : Nat) : Nat :=
  if i = 0 then vp.volume0 else vp.volume1

/-- The DSP state consumed by the mixing stage of `Dsp::tick`: the eight
voices (after the per-voice `Voice::tick` loop), the signed master
volumes (`i8` bit patterns), and the mute flag. -/
structure DspMix where
  voices : List VoiceParams
  master_volume0 : Nat
  master_volume1 : Nat
  enable_mute : Bool
deriving DecidableEq, Repr

/-- `master_volume[i]`. -/
def DspMix.master (d : DspMix) (i : Nat) : Nat :=
  if i = 0 then d.master_volume0 else d.master_volume1

/-- Mirrors the mixing and emit stage of `Dsp::tick` (everything after
the per-voice tick loop): for each of the two channels, accumulate
`((sample << 1 as i16) as i32 >> 1) * volume >> 6` over the eight voices
with saturation to the signed 16-bit range after every addition, scale by
the signed master volume with `>> 7` and saturate again, replace by 0
when the mute flag is set, take the bitwise complement, and push the
resulting (left, right) pair onto the audio buffer. -/
def dsp_tick_mix (d : DspMix) (buffer : List (Int × Int)) : List (Int × Int) :=
  let out := fun (i : Nat) =>
    let normal_voice := d.voices.foldl (fun nv vp =>
      let sample := asr (asI16 ((vp.sample * 2) % 65536)) 1
      let c := asr (sample * asI8 (vp.volume i)) 6
      i32_clamp (nv + c) (-0x8000) 0x7FFF) 0
    let normal_voice := i32_clamp (asr (normal_voice * asI8 (d.master i)) 7) (-0x8000) 0x7FFF
    let o : Int := if d.enable_mute then 0 else normal_voice
    i16_not o
  buffer ++ [(out 0, out 1)]

/-- The clamped mixed value in the words of the specification: the sum of
the eight voice outputs weighted by their per-channel volumes (saturating
to the signed 16-bit range after each voice), scaled by the signed master
volume and clamped to the signed 16-bit range, with 0 substituted when
the mute flag is set. -/
def clamped_mixed_value (d : DspMix) (i : Nat) : Int :=
  if d.enable_mute then 0
  else
    i32_clamp
      (asr ((d.voices.foldl (fun nv vp =>
          let sample := asr (asI16 ((vp.sample * 2) % 65536)) 1
          let c := asr (sample * asI8 (vp.volume i)) 6
          i32_clamp (nv + c) (-0x8000) 0x7FFF) 0) * asI8 (d.master i)) 7)
      (-0x8000) 0x7FFF

/-! ## Claim C9: DSP output -/

/-- Claim C9 counterexample: with all voices and volumes zero and the
mute flag clear, the clamped mixed value is 0 but `Dsp::tick` appends
(-1, -1) — the bitwise complement — so the emitted pair is not the
clamped mixed value itself. -/
theorem C9_dsp_emit_counterexample :
    dsp_tick_mix ⟨List.replicate 8 ⟨0, 0, 0⟩, 0, 0, false⟩ [] = [(-1, -1)] ∧
    clamped_mixed_value ⟨List.replicate 8 ⟨0, 0, 0⟩, 0, 0, false⟩ 0 = 0 ∧
    ((-1 : Int) ≠ 0) := by
  refine ⟨by decide, by decide, by decide⟩

/-- Claim C9 amended: each DSP step appends to the audio buffer the
bitwise complement of the clamped mixed value for each channel — the
voices are summed with per-channel volumes saturating stepwise, the
signed master volume is applied, the result is clamped to the signed
16-bit range (or replaced by 0 when muted), and the complement of that
value is emitted; the clamped value and the emitted value both lie in
the signed 16-bit range. -/
theorem C9_dsp_emit_complement (d : DspMix) (buf : List (Int × Int)) :
    (dsp_tick_mix d buf =
      buf ++ [(i16_not (clamped_mixed_value d 0), i16_not (clamped_mixed_value d 1))]) ∧
    (∀ i : Nat, -0x8000 ≤ clamped_mixed_value d i ∧ clamped_mixed_value d i ≤ 0x7FFF) ∧
    (∀ i : Nat, -0x8000 ≤ i16_not (clamped_mixed_value d i) ∧
      i16_not (clamped_mixed_value d i) ≤ 0x7FFF) := by
  have hclamp : ∀ x : Int, -0x8000 ≤ i32_clamp x (-0x8000) 0x7FFF ∧
      i32_clamp x (-0x8000) 0x7FFF ≤ 0x7FFF := by
    intro x
    unfold i32_clamp
    split
    · omega
    · split <;> omega
  have hrange : ∀ i : Nat, -0x8000 ≤ clamped_mixed_value d i ∧
      clamped_mixed_value d i ≤ 0x7FFF := by
    intro i
    unfold clamped_mixed_value
    split
    · omega
    · exact hclamp _
  refine ⟨?_, hrange, ?_⟩
  · unfold dsp_tick_mix clamped_mixed_value
    cases hm : d.enable_mute <;> simp [hm, i16_not]
  · intro i
    have h := hrange i
    unfold i16_not
    omega

/-! ## GDMA engine (src/bus.rs, `Bus::gdma_exec`) -/

/-- One DMA channel, reduced to the fields `Bus::gdma_exec` uses: the
B-bus port, A-bus address and bank, the 16-bit byte count, and the
`transfer_unit` / `a_bus_address_step` / `transfer_direction` fields of
the channel parameter byte.  Mirrors `bus.rs` `struct Dma`. -/
structure Dma where
  b_bus_address : Nat
  a_bus_address : Nat
  a_bus_bank : Nat
  number_of_bytes_to_transfer : Nat
  transfer_unit_sel : Nat
  a_bus_address_step_sel : Nat
  direction_a_to_b : Bool
deriving DecidableEq, Repr

/-- Mirrors `impl Default for Dma` (all fields zero, direction A to B). -/
def Dma.default : Dma := ⟨0, 0, 0, 0, 0, 0, true⟩

instance : Inhabited Dma := ⟨Dma.default⟩

/-- Mirrors `Dma::transfer_unit`: the B-bus offset pattern selected by
the 3-bit `transfer_unit` field. -/
def Dma.transfer_unit (d : Dma) : List Nat :=
  match d.transfer_unit_sel % 8 with
  | 0 => [0]
  | 1 => [0, 1]
  | 2 => [0, 0]
  | 6 => [0, 0]
  | 3 => [0, 0, 1, 1]
  | 7 => [0, 0, 1, 1]
  | 4 => [0, 1, 2, 3]
  | 5 => [0, 1, 0, 1]
  | _ => []

/-- Mirrors the `a_step` computation in `Bus::gdma_exec`: +1, 0, -1 (as
`u16`, hence 0xFFFF), or 0. -/
def Dma.a_step (d : Dma) : Nat :=
  match d.a_bus_address_step_sel % 4 with
  | 0 => 1
  | 1 => 0
  | 2 => 0xFFFF
  | _ => 0

/-- The bus state consumed by the GDMA engine: the eight DMA channels and
the `$420B` GDMA enable mask. -/
structure GdmaState where
  dma : List Dma
  gdma_enable : Nat
deriving DecidableEq, Repr

/-- Mirrors `u8::trailing_zeros` for a byte. -/
def trailing_zeros8 (n : Nat) : Nat :=
  if n &&& 1 ≠ 0 then 0
  else if n &&& 2 ≠ 0 then 1
  else if n &&& 4 ≠ 0 then 2
  else if n &&& 8 ≠ 0 then 3
  else if n &&& 16 ≠ 0 then 4
  else if n &&& 32 ≠ 0 then 5
  else if n &&& 64 ≠ 0 then 6
  else if n &&& 128 ≠ 0 then 7
  else 8

/-- Mirrors the `0x420B` arm of `Bus::write`: store the mask. -/
def bus_write_420B (st : GdmaState) (dta : Nat) : GdmaState :=
  { st with gdma_enable := dta % 256 }

/-- The body of the transfer loop of `Bus::gdma_exec`, one iteration per
entry of the transfer-unit pattern: bill 8 clocks, transfer one byte
(counted in the third component), advance the A-bus address by the step,
decrement the 16-bit byte count with wraparound, then test it; on zero,
clear the channel bit in the enable mask, bill 16 more clocks and stop.
Returns (channel, enable mask, bytes transferred, clocks billed). -/
def gdma_loop (unit : List Nat) (d : Dma) (en : Nat) (ch : Nat) : Dma × Nat × Nat × Nat :=
  match unit with
  | [] => (d, en, 0, 0)
  | _u :: rest =>
    let d := { d with
        a_bus_address := (d.a_bus_address + d.a_step) % 65536,
        number_of_bytes_to_transfer := (d.number_of_bytes_to_transfer + 65535) % 65536 }
    if d.number_of_bytes_to_transfer = 0 then
      (d, en &&& (0xFF ^^^ (1 <<< ch)), 1, 8 + 16)
    else
      let r := gdma_loop rest d en ch
      (r.1, r.2.1, r.2.2.1 + 1, r.2.2.2 + 8)

/-- Mirrors `Bus::gdma_exec`: nothing happens when the mask is zero;
otherwise the lowest-numbered enabled channel runs one pass over its
transfer-unit pattern.  Returns the new state, the number of bytes
transferred, and the clocks billed. -/
def gdma_exec (st : GdmaState) : GdmaState × Nat × Nat :=
  if st.gdma_enable = 0 then (st, 0, 0)
  else
    let ch := trailing_zeros8 st.gdma_enable
    let d := st.dma.getD ch Dma.default
    let r := gdma_loop d.transfer_unit d st.gdma_enable ch
    ({ dma := st.dma.set ch r.1, gdma_enable := r.2.1 }, r.2.2.1, r.2.2.2)

/-- Iterate `Bus::gdma_exec` (one invocation per `Bus::tick`) until the
enable mask is clear, accumulating bytes and clocks; `fuel` bounds the
number of iterations. -/
def gdma_run (fuel : Nat) (st : GdmaState) : GdmaState × Nat × Nat :=
  match fuel with
  | 0 => (st, 0, 0)
  | Nat.succ fuel =>
    if st.gdma_enable = 0 then (st, 0, 0)
    else
      let r := gdma_exec st
      let r2 := gdma_run fuel r.1
      (r2.1, r.2.1 + r2.2.1, r.2.2 + r2.2.2)

/-- The effective byte count of a channel: the 16-bit count is
decremented before being tested, so 0 acts as 65,536. -/
def eff_count (n : Nat) : Nat := if n = 0 then 65536 else n

/-- Basic bounds for `eff_count`. -/
theorem eff_count_bounds (n : Nat) (h : n < 65536) :
    1 ≤ eff_count n ∧ eff_count n ≤ 65536 ∧ (n = 0 → eff_count n = 65536) ∧
    (n ≠ 0 → eff_count n = n) := by
  unfold eff_count
  split <;> omega

/-- The transfer-unit pattern always has between one and four entries. -/
theorem transfer_unit_len (d : Dma) :
    1 ≤ d.transfer_unit.length ∧ d.transfer_unit.length ≤ 4 := by
  unfold Dma.transfer_unit
  have h : d.transfer_unit_sel % 8 < 8 := Nat.mod_lt _ (by norm_num)
  set r := d.transfer_unit_sel % 8 with hr
  interval_cases r <;> simp

set_option maxRecDepth 16000 in
/-- Behaviour of one pass of the `Bus::gdma_exec` transfer loop: with an
effective byte count E, a pass over a pattern of length L transfers
min(E, L) bytes at 8 clocks each; when E ≤ L the pass ends early with the
count at zero, the channel bit cleared from the enable mask and 16
teardown clocks billed; otherwise the count drops by L and the mask is
untouched. -/
theorem gdma_loop_spec (unit : List Nat) : ∀ (d : Dma) (en ch : Nat),
    d.number_of_bytes_to_transfer < 65536 →
    ((gdma_loop unit d en ch).1.transfer_unit_sel = d.transfer_unit_sel) ∧
    (if eff_count d.number_of_bytes_to_transfer ≤ unit.length then
      ((gdma_loop unit d en ch).2.2.1 = eff_count d.number_of_bytes_to_transfer) ∧
      ((gdma_loop unit d en ch).2.2.2 = 8 * eff_count d.number_of_bytes_to_transfer + 16) ∧
      ((gdma_loop unit d en ch).2.1 = en &&& (0xFF ^^^ (1 <<< ch))) ∧
      ((gdma_loop unit d en ch).1.number_of_bytes_to_transfer = 0)
    else
      ((gdma_loop unit d en ch).2.2.1 = unit.length) ∧
      ((gdma_loop unit d en ch).2.2.2 = 8 * unit.length) ∧
      ((gdma_loop unit d en ch).2.1 = en) ∧
      ((gdma_loop unit d en ch).1.number_of_bytes_to_transfer =
        (eff_count d.number_of_bytes_to_transfer - unit.length) % 65536)) := by
  induction unit with
  | nil =>
    intro d en ch hc
    obtain ⟨hE1, hE2, hE3, hE4⟩ := eff_count_bounds _ hc
    refine ⟨rfl, ?_⟩
    rw [if_neg (by simp; omega)]
    refine ⟨rfl, rfl, rfl, ?_⟩
    show d.number_of_bytes_to_transfer = _
    simp only [List.length_nil, Nat.sub_zero]
    by_cases h0 : d.number_of_bytes_to_transfer = 0
    · rw [h0]
      decide
    · rw [hE4 h0, Nat.mod_eq_of_lt hc]
  | cons u rest ih =>
    intro d en ch hc
    obtain ⟨hE1, hE2, hE3, hE4⟩ := eff_count_bounds _ hc
    rw [gdma_loop]
    simp only []
    generalize hd2 : ({ d with
        a_bus_address := (d.a_bus_address + d.a_step) % 65536,
        number_of_bytes_to_transfer :=
          (d.number_of_bytes_to_transfer + 65535) % 65536 } : Dma) = d2
    have hnum : d2.number_of_bytes_to_transfer =
        (d.number_of_bytes_to_transfer + 65535) % 65536 := by
      rw [← hd2]
    have hsel2 : d2.transfer_unit_sel = d.transfer_unit_sel := by
      rw [← hd2]
    by_cases h0 : (d.number_of_bytes_to_transfer + 65535) % 65536 = 0
    · rw [if_pos h0]
      dsimp only []
      have hN1 : d.number_of_bytes_to_transfer = 1 := by omega
      have hE : eff_count d.number_of_bytes_to_transfer = 1 := by
        rw [hE4 (by omega)]
        exact hN1
      refine ⟨hsel2, ?_⟩
      rw [if_pos (by rw [hE]; simp)]
      refine ⟨by rw [hE], by rw [hE], rfl, by rw [hnum]; exact h0⟩
    · rw [if_neg h0]
      dsimp only []
      have hc2 : d2.number_of_bytes_to_transfer < 65536 := by
        rw [hnum]
        exact Nat.mod_lt _ (by norm_num)
      obtain ⟨ih1, ih2⟩ := ih d2 en ch hc2
      have hEE : eff_count d2.number_of_bytes_to_transfer =
          eff_count d.number_of_bytes_to_transfer - 1 := by
        obtain ⟨hF1, hF2, hF3, hF4⟩ := eff_count_bounds _ hc2
        rw [hF4 (by rw [hnum]; exact h0), hnum]
        by_cases hz : d.number_of_bytes_to_transfer = 0
        · rw [hE3 hz]
          omega
        · rw [hE4 hz]
          omega
      rw [hEE] at ih2
      refine ⟨by rw [ih1]; exact hsel2, ?_⟩
      by_cases hEL : eff_count d.number_of_bytes_to_transfer ≤ (u :: rest).length
      · rw [if_pos hEL]
        rw [if_pos (by simp at hEL ⊢; omega)] at ih2
        obtain ⟨hb, hk, he, hn⟩ := ih2
        exact ⟨by rw [hb]; omega, by rw [hk]; omega, he, hn⟩
      · rw [if_neg hEL]
        rw [if_neg (by simp at hEL ⊢; omega)] at ih2
        obtain ⟨hb, hk, he, hn⟩ := ih2
        refine ⟨by rw [hb]; simp, by rw [hk]; simp; omega, he, ?_⟩
        rw [hn]
        simp only [List.length_cons]
        omega

/-- For any nonzero byte, `u8::trailing_zeros` names a channel below 8
whose bit is set while every lower bit is clear: it is the
lowest-numbered enabled channel of the mask. -/
theorem trailing_zeros8_lowest (en : Nat) (hne : en ≠ 0) (hlt : en < 256) :
    trailing_zeros8 en < 8 ∧ en.testBit (trailing_zeros8 en) = true ∧
    en &&& ((1 <<< trailing_zeros8 en) - 1) = 0 := by
  have h1 : 1 ≤ en := by omega
  interval_cases en <;> decide

/-- Masking a byte with the complement of bit i clears bit i. -/
theorem and_not_shift_testBit (en i : Nat) (hi : i < 8) :
    (en &&& (0xFF ^^^ (1 <<< i))).testBit i = false := by
  rw [Nat.testBit_land]
  have h : (0xFF ^^^ (1 <<< i)).testBit i = false := by
    interval_cases i <;> decide
  rw [h, Bool.and_false]

/-- One invocation of `Bus::gdma_exec` on any nonzero enable mask runs
the channel i picked by the trailing-zero count, with effective count E
and pattern length L: it transfers min(E, L) bytes at 8 clocks each; when
E ≤ L the channel finishes (count 0, its bit alone is cleared from the
mask, 16 teardown clocks are billed), otherwise the count drops by L and
the mask stays.  Every other channel's entry is untouched. -/
theorem gdma_exec_spec (st : GdmaState) (i E L : Nat) (hi : i < 8)
    (hne : st.gdma_enable ≠ 0)
    (hitz : trailing_zeros8 st.gdma_enable = i)
    (hlen : st.dma.length = 8)
    (hc : (st.dma.getD i Dma.default).number_of_bytes_to_transfer < 65536)
    (hE : E = eff_count (st.dma.getD i Dma.default).number_of_bytes_to_transfer)
    (hL : L = (st.dma.getD i Dma.default).transfer_unit.length) :
    ((gdma_exec st).2.1 = min E L) ∧
    ((gdma_exec st).2.2 = if E ≤ L then 8 * E + 16 else 8 * L) ∧
    ((gdma_exec st).1.gdma_enable =
      if E ≤ L then st.gdma_enable &&& (0xFF ^^^ (1 <<< i)) else st.gdma_enable) ∧
    ((gdma_exec st).1.dma.length = 8) ∧
    (((gdma_exec st).1.dma.getD i Dma.default).number_of_bytes_to_transfer =
      if E ≤ L then 0 else E - L) ∧
    (((gdma_exec st).1.dma.getD i Dma.default).transfer_unit =
      (st.dma.getD i Dma.default).transfer_unit) ∧
    (∀ j, j ≠ i →
      (gdma_exec st).1.dma.getD j Dma.default = st.dma.getD j Dma.default) := by
  rw [gdma_exec, if_neg hne, hitz]
  dsimp only []
  obtain ⟨hsel, hbr⟩ :=
    gdma_loop_spec (st.dma.getD i Dma.default).transfer_unit
      (st.dma.getD i Dma.default) st.gdma_enable i hc
  have hgetset : ∀ x : Dma, ((st.dma.set i x).getD i Dma.default) = x := by
    intro x
    have hilt : i < st.dma.length := by omega
    simp [List.getD, List.getElem?_set_self, hilt]
  have hgetset_ne : ∀ (x : Dma) (j : Nat), j ≠ i →
      (st.dma.set i x).getD j Dma.default = st.dma.getD j Dma.default := by
    intro x j hj
    simp [List.getD, List.getElem?_set_ne (fun hq => hj hq.symm)]
  have hsetlen : ∀ x : Dma, (st.dma.set i x).length = 8 := by
    intro x
    simp [hlen]
  have hunit : ∀ x : Dma, x.transfer_unit_sel = (st.dma.getD i Dma.default).transfer_unit_sel →
      x.transfer_unit = (st.dma.getD i Dma.default).transfer_unit := by
    intro x hx
    unfold Dma.transfer_unit
    rw [hx]
  by_cases hEL : E ≤ L
  · rw [hE, hL] at hEL
    rw [if_pos hEL] at hbr
    obtain ⟨hb, hk, he, hn⟩ := hbr
    rw [if_pos (by rw [hE, hL]; exact hEL), if_pos (by rw [hE, hL]; exact hEL),
      if_pos (by rw [hE, hL]; exact hEL)]
    refine ⟨?_, ?_, he, hsetlen _, ?_, ?_, fun j hj => hgetset_ne _ j hj⟩
    · show _ = min E L
      rw [hb, hE, hL]
      omega
    · show _ = 8 * E + 16
      rw [hk, hE]
    · rw [hgetset]
      exact hn
    · rw [hgetset]
      exact hunit _ hsel
  · rw [hE, hL] at hEL
    rw [if_neg hEL] at hbr
    obtain ⟨hb, hk, he, hn⟩ := hbr
    rw [if_neg (by rw [hE, hL]; exact hEL), if_neg (by rw [hE, hL]; exact hEL),
      if_neg (by rw [hE, hL]; exact hEL)]
    obtain ⟨hE1, hE2, hE3, hE4⟩ := eff_count_bounds _ hc
    obtain ⟨hL1, hL2⟩ := transfer_unit_len (st.dma.getD i Dma.default)
    have hmod : (eff_count (st.dma.getD i Dma.default).number_of_bytes_to_transfer -
        (st.dma.getD i Dma.default).transfer_unit.length) % 65536 =
        eff_count (st.dma.getD i Dma.default).number_of_bytes_to_transfer -
        (st.dma.getD i Dma.default).transfer_unit.length := Nat.mod_eq_of_lt (by omega)
    refine ⟨?_, ?_, he, hsetlen _, ?_, ?_, fun j hj => hgetset_ne _ j hj⟩
    · show _ = min E L
      rw [hb, hE, hL]
      omega
    · show _ = 8 * L
      rw [hk, hL]
    · rw [hgetset, hn, hmod, hE, hL]
    · rw [hgetset]
      exact hunit _ hsel

/-- Running `Bus::gdma_exec` for exactly the number of passes the lowest
enabled channel needs (k = ceiling of its effective count E over its
pattern length) transfers exactly E bytes, bills 8 clocks per byte plus
the 16-clock teardown, clears exactly that channel's bit from the mask,
zeroes its count, and leaves every other channel untouched. -/
theorem gdma_run_phase (k : Nat) : ∀ (st : GdmaState) (i : Nat),
    st.gdma_enable ≠ 0 → st.gdma_enable < 256 →
    trailing_zeros8 st.gdma_enable = i →
    st.dma.length = 8 →
    (st.dma.getD i Dma.default).number_of_bytes_to_transfer < 65536 →
    1 ≤ k →
    (k - 1) * (st.dma.getD i Dma.default).transfer_unit.length <
      eff_count (st.dma.getD i Dma.default).number_of_bytes_to_transfer →
    eff_count (st.dma.getD i Dma.default).number_of_bytes_to_transfer ≤
      k * (st.dma.getD i Dma.default).transfer_unit.length →
    ((gdma_run k st).2.1 =
      eff_count (st.dma.getD i Dma.default).number_of_bytes_to_transfer) ∧
    ((gdma_run k st).2.2 =
      8 * eff_count (st.dma.getD i Dma.default).number_of_bytes_to_transfer + 16) ∧
    ((gdma_run k st).1.gdma_enable = st.gdma_enable &&& (0xFF ^^^ (1 <<< i))) ∧
    (((gdma_run k st).1.dma.getD i Dma.default).number_of_bytes_to_transfer = 0) ∧
    (∀ j, j ≠ i →
      (gdma_run k st).1.dma.getD j Dma.default = st.dma.getD j Dma.default) := by
  induction k with
  | zero =>
    intro st i hne hlt hitz hlen hc hk1 hk2 hk3
    exact absurd hk1 (by omega)
  | succ f ih =>
    intro st i hne hlt hitz hlen hc hk1 hk2 hk3
    have hi : i < 8 := by
      have h8 := (trailing_zeros8_lowest st.gdma_enable hne hlt).1
      omega
    obtain ⟨hb, hk, hen', hlen', hcnt', hunit', hothers⟩ :=
      gdma_exec_spec st i
        (eff_count (st.dma.getD i Dma.default).number_of_bytes_to_transfer)
        ((st.dma.getD i Dma.default).transfer_unit.length) hi hne hitz hlen hc rfl rfl
    obtain ⟨hE1, hE2, hE3, hE4⟩ := eff_count_bounds _ hc
    obtain ⟨hL1, hL2⟩ := transfer_unit_len (st.dma.getD i Dma.default)
    simp only [Nat.add_sub_cancel] at hk2
    rw [gdma_run, if_neg hne]
    dsimp only []
    by_cases hf : f = 0
    · subst hf
      have hEL : eff_count (st.dma.getD i Dma.default).number_of_bytes_to_transfer ≤
          (st.dma.getD i Dma.default).transfer_unit.length := by
        have h := hk3
        rw [Nat.zero_add, one_mul] at h
        exact h
      rw [if_pos hEL] at hk hen' hcnt'
      have hz : gdma_run 0 (gdma_exec st).1 = ((gdma_exec st).1, 0, 0) := rfl
      rw [hz]
      dsimp only []
      refine ⟨?_, ?_, hen', hcnt', hothers⟩
      · rw [hb]
        omega
      · rw [hk]
    · have hf1 : 1 ≤ f := by omega
      have hmulL : (st.dma.getD i Dma.default).transfer_unit.length ≤
          f * (st.dma.getD i Dma.default).transfer_unit.length :=
        Nat.le_mul_of_pos_left _ hf1
      have hEL : ¬ (eff_count (st.dma.getD i Dma.default).number_of_bytes_to_transfer ≤
          (st.dma.getD i Dma.default).transfer_unit.length) := by
        omega
      rw [if_neg hEL] at hk hen' hcnt'
      have hc2 : ((gdma_exec st).1.dma.getD i Dma.default).number_of_bytes_to_transfer
          < 65536 := by
        rw [hcnt']
        omega
      have heff2 : eff_count
          ((gdma_exec st).1.dma.getD i Dma.default).number_of_bytes_to_transfer =
          eff_count (st.dma.getD i Dma.default).number_of_bytes_to_transfer -
            (st.dma.getD i Dma.default).transfer_unit.length := by
        rw [(eff_count_bounds _ hc2).2.2.2 (by rw [hcnt']; omega), hcnt']
      have hLL : ((gdma_exec st).1.dma.getD i Dma.default).transfer_unit.length =
          (st.dma.getD i Dma.default).transfer_unit.length :=
        congrArg List.length hunit'
      have hsm : (f + 1) * (st.dma.getD i Dma.default).transfer_unit.length =
          f * (st.dma.getD i Dma.default).transfer_unit.length +
            (st.dma.getD i Dma.default).transfer_unit.length := Nat.succ_mul f _
      have hsub : (f - 1) * (st.dma.getD i Dma.default).transfer_unit.length =
          f * (st.dma.getD i Dma.default).transfer_unit.length -
            (st.dma.getD i Dma.default).transfer_unit.length := Nat.sub_one_mul f _
      obtain ⟨ip1, ip2, ip3, ip4, ip5⟩ := ih (gdma_exec st).1 i
        (by rw [hen']; exact hne) (by rw [hen']; exact hlt) (by rw [hen']; exact hitz)
        hlen' hc2 hf1
        (by rw [hLL, heff2]; omega)
        (by rw [hLL, heff2]; omega)
      rw [heff2] at ip1 ip2
      refine ⟨?_, ?_, ?_, ip4, ?_⟩
      · rw [hb, ip1]
        omega
      · rw [hk, ip2]
        omega
      · rw [ip3, hen']
      · intro j hj
        exact (ip5 j hj).trans (hothers j hj)

/-! ## Claim C4: GDMA byte counting -/

/-- Claim C4: writing any nonzero mask to $420B latches its low byte, and
the GDMA engine runs the lowest-numbered enabled channel i (the
trailing-zero index of the mask: bit i is set and all lower bits are
clear).  Because the 16-bit byte count is decremented and then tested, an
initial count N transfers exactly N bytes while an initial count of 0
transfers 65,536 bytes; the engine bills 8 clocks per byte plus a
16-clock teardown, and on completion (after the k passes the channel
needs) exactly channel i's enable bit has been cleared from the mask, its
count is 0, and every other channel's registers are untouched. -/
theorem C4_gdma_byte_count (st0 : GdmaState) (dta i k : Nat)
    (hnz : dta % 256 ≠ 0)
    (hitz : trailing_zeros8 (dta % 256) = i)
    (hlen : st0.dma.length = 8)
    (hc : (st0.dma.getD i Dma.default).number_of_bytes_to_transfer < 65536)
    (hk1 : 1 ≤ k)
    (hk2 : (k - 1) * (st0.dma.getD i Dma.default).transfer_unit.length <
      eff_count (st0.dma.getD i Dma.default).number_of_bytes_to_transfer)
    (hk3 : eff_count (st0.dma.getD i Dma.default).number_of_bytes_to_transfer ≤
      k * (st0.dma.getD i Dma.default).transfer_unit.length) :
    ((bus_write_420B st0 dta).gdma_enable = dta % 256) ∧
    ((dta % 256).testBit i = true) ∧
    ((dta % 256) &&& ((1 <<< i) - 1) = 0) ∧
    ((st0.dma.getD i Dma.default).number_of_bytes_to_transfer ≠ 0 →
      (gdma_run k (bus_write_420B st0 dta)).2.1 =
        (st0.dma.getD i Dma.default).number_of_bytes_to_transfer) ∧
    ((st0.dma.getD i Dma.default).number_of_bytes_to_transfer = 0 →
      (gdma_run k (bus_write_420B st0 dta)).2.1 = 65536) ∧
    ((gdma_run k (bus_write_420B st0 dta)).2.2 =
      8 * (gdma_run k (bus_write_420B st0 dta)).2.1 + 16) ∧
    ((gdma_run k (bus_write_420B st0 dta)).1.gdma_enable =
      (dta % 256) &&& (0xFF ^^^ (1 <<< i))) ∧
    ((gdma_run k (bus_write_420B st0 dta)).1.gdma_enable.testBit i = false) ∧
    (((gdma_run k (bus_write_420B st0 dta)).1.dma.getD i
        Dma.default).number_of_bytes_to_transfer = 0) ∧
    (∀ j, j ≠ i → (gdma_run k (bus_write_420B st0 dta)).1.dma.getD j Dma.default =
      st0.dma.getD j Dma.default) := by
  have hmask : (bus_write_420B st0 dta).gdma_enable = dta % 256 := rfl
  have hne : (bus_write_420B st0 dta).gdma_enable ≠ 0 := by
    rw [hmask]
    exact hnz
  have hlt : (bus_write_420B st0 dta).gdma_enable < 256 := by
    rw [hmask]
    exact Nat.mod_lt _ (by norm_num)
  obtain ⟨hlow1, hlow2, hlow3⟩ :=
    trailing_zeros8_lowest (dta % 256) hnz (Nat.mod_lt _ (by norm_num))
  rw [hitz] at hlow1 hlow2 hlow3
  obtain ⟨hr1, hr2, hr3, hr4, hr5⟩ :=
    gdma_run_phase k (bus_write_420B st0 dta) i hne hlt (by rw [hmask]; exact hitz)
      hlen hc hk1 hk2 hk3
  obtain ⟨hE1, hE2, hE3, hE4⟩ := eff_count_bounds _ hc
  refine ⟨hmask, hlow2, hlow3, ?_, ?_, ?_, ?_, ?_, hr4, hr5⟩
  · intro hnz0
    rw [hr1]
    exact hE4 hnz0
  · intro hz0
    rw [hr1]
    exact hE3 hz0
  · rw [hr1, hr2]
  · rw [hr3, hmask]
  · rw [hr3, hmask]
    exact and_not_shift_testBit (dta % 256) i hlow1

/-- Claim C4 witness: mask $A4 (channels 2, 5 and 7 enabled) runs channel
2 (count 3, pattern [0]) to completion in three passes: 3 bytes are
transferred, the mask is left at $A0, and channel 5's registers (count 7)
are untouched. -/
theorem C4_gdma_byte_count_witness :
    ((gdma_run 3 (bus_write_420B
        ⟨[Dma.default, Dma.default, ⟨0, 0, 0, 3, 0, 0, true⟩, Dma.default,
          Dma.default, ⟨0, 0, 0, 7, 0, 0, true⟩, Dma.default, Dma.default], 0⟩
        0xA4)).2.1 = 3) ∧
    ((gdma_run 3 (bus_write_420B
        ⟨[Dma.default, Dma.default, ⟨0, 0, 0, 3, 0, 0, true⟩, Dma.default,
          Dma.default, ⟨0, 0, 0, 7, 0, 0, true⟩, Dma.default, Dma.default], 0⟩
        0xA4)).1.gdma_enable = 0xA0) ∧
    ((gdma_run 3 (bus_write_420B
        ⟨[Dma.default, Dma.default, ⟨0, 0, 0, 3, 0, 0, true⟩, Dma.default,
          Dma.default, ⟨0, 0, 0, 7, 0, 0, true⟩, Dma.default, Dma.default], 0⟩
        0xA4)).1.dma.getD 5 Dma.default = ⟨0, 0, 0, 7, 0, 0, true⟩) := by
  have h := C4_gdma_byte_count
    ⟨[Dma.default, Dma.default, ⟨0, 0, 0, 3, 0, 0, true⟩, Dma.default,
      Dma.default, ⟨0, 0, 0, 7, 0, 0, true⟩, Dma.default, Dma.default], 0⟩ 0xA4 2 3
    (by decide) (by decide) (by decide) (by decide) (by decide) (by decide) (by decide)
  refine ⟨?_, ?_, ?_⟩
  · exact (h.2.2.2.1 (by decide)).trans (by decide)
  · exact (h.2.2.2.2.2.2.1).trans (by decide)
  · exact (h.2.2.2.2.2.2.2.2.2 5 (by decide)).trans (by decide)
